import Mathlib

/-!
Verification of the live-event tracking and channel-lifecycle engine of the
Discord-Sports-Info repository.

The development shallowly embeds the two managers of the repository
(`LiveGameManager`, the MLB session tracker, and `ScoreCenterManager`, the
score-center reconciler) and the ESPN feed client's rate limiter
(`ESPNAPIService.makeRequest`).  JavaScript `Map`s become association lists
with unique keys, timers become explicit entries in a timer list,
websocket/interval callbacks become explicit transition functions on the
manager state, and every platform (Discord) side effect is recorded in an
explicit call trace so that ordering and idempotence properties can be
stated about it.
-/

set_option autoImplicit false

namespace SportsBot

/-! ## Association-list maps (JavaScript `Map` semantics)

A JavaScript `Map` has unique keys, so `Map.delete` removes the only
binding of a key; we model it as removing every binding, which coincides
on all states a `Map` can reach. -/

/-- `Map.get`: the value bound to key `k`. -/
def mapGet {α : Type} (k : String) : List (String × α) → Option α
  | [] => none
  | (k', v) :: rest => if k' = k then some v else mapGet k rest

/-- `Map.set`: replace the binding for `k` if present, else append it. -/
def mapSet {α : Type} (k : String) (v : α) : List (String × α) → List (String × α)
  | [] => [(k, v)]
  | (k', v') :: rest => if k' = k then (k, v) :: rest else (k', v') :: mapSet k v rest

/-- `Map.delete`: remove the binding for `k`. -/
def mapDelete {α : Type} (k : String) : List (String × α) → List (String × α)
  | [] => []
  | (k', v') :: rest => if k' = k then mapDelete k rest else (k', v') :: mapDelete k rest

@[simp] theorem mapGet_mapDelete_self {α : Type} (k : String) (l : List (String × α)) :
    mapGet k (mapDelete k l) = none := by
  induction l with
  | nil => rfl
  | cons p rest ih =>
    obtain ⟨k', v⟩ := p
    by_cases h : k' = k
    · simp [mapDelete, h, ih]
    · simp [mapDelete, mapGet, h, ih]

@[simp] theorem mapGet_nil {α : Type} (k : String) : mapGet (α := α) k [] = none := rfl

/-! ## LiveGameManager (the Session Tracker, `src` MLB live-game module)

One `Session` per tracked game, stored in `activeGames : Map`.  The
websocket callbacks (`open`, `message`, `error`, `close`), the keepalive
interval, the 5-minute status-check interval and the 1-hour archive
timeout all become explicit transitions; live timers are entries of
`LGM.timers`.

A JavaScript subtlety mirrored faithfully: `startTracking` stores the
*current value* of the local `keepAliveInterval` variable (still `null`,
because the `open` event cannot have fired yet) into the `activeGames`
record; the later assignment inside the `open` handler changes only the
closure variable (`LGM.localKeepAlive`), never the stored record field
(`Session.storedKeepAlive`). -/

/-- The record `startTracking` stores in `activeGames` (ws/thread/gameData
fields that no claim reads are omitted). -/
structure Session where
  channelId : String
  storedKeepAlive : Option Nat
  deriving DecidableEq, Repr

/-- A live timer: the keepalive interval (with its `setInterval` handle),
the 5-minute status-check interval, or the 1-hour archive timeout. -/
inductive Timer where
  | keepAlive (gameId : String) (ref : Nat)
  | statusCheck (gameId : String)
  | archiveTimeout (gameId : String)
  deriving DecidableEq, Repr

/-- `clearInterval`/`clearTimeout` on a known timer. -/
def eraseTimer (t : Timer) (ts : List Timer) : List Timer :=
  ts.filter (fun u => decide (¬ u = t))

/-- State of the `LiveGameManager` singleton plus the per-websocket closure
variables (`localKeepAlive` is each connection's local `keepAliveInterval`). -/
structure LGM where
  activeGames : List (String × Session)
  timers : List Timer
  localKeepAlive : List (String × Nat)
  fresh : Nat
  deriving DecidableEq, Repr

/-- Result value of `startTracking`. -/
inductive StartResult where
  | alreadyTracked
  | fetchFailed
  | started
  deriving DecidableEq, Repr

/-- Observable cleanup actions of `stopTracking`. -/
inductive SessionAction where
  | wsCloseCall (gameId : String)
  | clearIntervalCall (ref : Nat)
  | deregister (gameId : String)
  deriving DecidableEq, Repr

/-- `startTracking(gameId, thread, channelId)` up to its synchronous end:
duplicate check, initial fetch (success given by `fetchOk`), websocket
creation, registration (capturing the still-null local keepalive handle),
and creation of the status-check interval.  The returned `Nat` counts
outbound fetches issued. -/
def startTracking (s : LGM) (gameId chan : String) (fetchOk : Bool) :
    StartResult × LGM × Nat :=
  if (mapGet gameId s.activeGames).isSome then (.alreadyTracked, s, 0)
  else if fetchOk then
    (.started,
      { s with
        activeGames := mapSet gameId ⟨chan, none⟩ s.activeGames,
        timers := s.timers ++ [.statusCheck gameId] }, 1)
  else (.fetchFailed, s, 1)

/-- The websocket `open` handler: starts the keepalive interval and assigns
the closure-local `keepAliveInterval` variable (the stored record keeps its
captured `null`). -/
def onOpen (s : LGM) (gameId : String) : LGM :=
  { s with
    timers := s.timers ++ [.keepAlive gameId s.fresh],
    localKeepAlive := mapSet gameId s.fresh s.localKeepAlive,
    fresh := s.fresh + 1 }

/-- `stopTracking(gameId)`: when a session exists, call `ws.close()`, clear
the *stored* keepalive handle if non-null, and delete the registry entry;
otherwise do nothing. -/
def stopTracking (s : LGM) (gameId : String) : LGM × List SessionAction :=
  match mapGet gameId s.activeGames with
  | none => (s, [])
  | some sess =>
    let timers :=
      match sess.storedKeepAlive with
      | some r => eraseTimer (.keepAlive gameId r) s.timers
      | none => s.timers
    let acts :=
      [SessionAction.wsCloseCall gameId] ++
      (match sess.storedKeepAlive with
       | some r => [SessionAction.clearIntervalCall r]
       | none => []) ++
      [SessionAction.deregister gameId]
    ({ s with activeGames := mapDelete gameId s.activeGames, timers := timers }, acts)

/-- The websocket `error` handler: `console.error` only — no reconnect, no
state change. -/
def onError (s : LGM) (_gameId : String) : LGM := s

/-- The websocket `close` handler: clears the closure-local keepalive
interval if set, then calls `stopTracking(gameId)`. -/
def onClose (s : LGM) (gameId : String) : LGM :=
  let s1 :=
    match mapGet gameId s.localKeepAlive with
    | some r => { s with timers := eraseTimer (.keepAlive gameId r) s.timers }
    | none => s
  (stopTracking s1 gameId).1

/-- One firing of the 5-minute status-check interval.  `fetchedGameOver`
says whether the re-fetched data reports a final `detailedState`.  When the
session is gone the interval clears itself; when the game is over
`handleGameEnd` stops tracking, schedules the archive timeout, and the
interval is cleared. -/
def statusCheckFire (s : LGM) (gameId : String) (fetchedGameOver : Bool) : LGM :=
  match mapGet gameId s.activeGames with
  | some _ =>
    if fetchedGameOver then
      let s1 := (stopTracking s gameId).1
      { s1 with timers := eraseTimer (.statusCheck gameId) s1.timers ++ [.archiveTimeout gameId] }
    else s
  | none => { s with timers := eraseTimer (.statusCheck gameId) s.timers }

/-- Shared helper: after `stopTracking` the game is not registered, whether
or not it was before. -/
theorem stopTracking_removes (s : LGM) (g : String) :
    mapGet g ((stopTracking s g).1).activeGames = none := by
  unfold stopTracking
  cases h : mapGet g s.activeGames with
  | none => simpa using h
  | some sess => simp

/-! ### The update-stream `message` handler and `updateThread` -/

/-- `liveData.plays.currentPlay`; `resultDescription` is
`currentPlay.result.description`, `none` when `result` is absent or the
description is absent/falsy. -/
structure Play where
  resultDescription : Option String
  deriving DecidableEq, Repr

/-- The optional-chained linescore reads of `updateThread`; `none` models
an absent (or falsy) field, defaulted by `|| 0`, `|| 1`, `|| 'Top'`. -/
structure Linescore where
  awayRuns : Option Nat
  homeRuns : Option Nat
  currentInning : Option Nat
  inningHalf : Option String
  deriving DecidableEq, Repr

/-- The slice of a fetched MLB game feed that `updateThread` reads. -/
structure GameSnapshot where
  currentPlay : Option Play
  linescore : Linescore
  awayAbbr : String
  homeAbbr : String
  deriving DecidableEq, Repr

/-- An inbound websocket update message.  `timeStamp = none` models an
absent or falsy token (the handler requires `update.timeStamp` truthy). -/
structure WsUpdate where
  timeStamp : Option String
  gameEvents : Option (List String)
  logicalEvents : Option (List String)
  deriving DecidableEq, Repr

/-- `updateThread`: the message posted to the thread, or `none` when the
guard `!currentPlay || !wsUpdate.gameEvents || wsUpdate.gameEvents.length
=== 0` returns early. -/
def updateThreadMsg (gd : GameSnapshot) (u : WsUpdate) : Option String :=
  match gd.currentPlay, u.gameEvents with
  | none, _ => none
  | some _, none => none
  | some play, some evs =>
    if evs = [] then none
    else
      let awayScore := gd.linescore.awayRuns.getD 0
      let homeScore := gd.linescore.homeRuns.getD 0
      let inning := gd.linescore.currentInning.getD 1
      let inningHalf := gd.linescore.inningHalf.getD "Top"
      let base := "**" ++ inningHalf ++ " " ++ toString inning ++ "** | " ++
        gd.awayAbbr ++ " " ++ toString awayScore ++ " - " ++ toString homeScore ++
        " " ++ gd.homeAbbr ++ "\n"
      let base :=
        match play.resultDescription with
        | some d => base ++ "\n" ++ d
        | none => base
      let levs := u.logicalEvents.getD []
      let base :=
        if levs.contains "homeRun" then base ++ "\n🔥 **HOME RUN!**"
        else if levs.contains "strikeout" then base ++ "\n⚾ Strikeout"
        else if levs.contains "walk" then base ++ "\n👟 Walk"
        else base
      some base

/-- Effect of one firing of the websocket `message` handler: the new value
of the closure-local `lastTimestamp`, the number of detail fetches issued,
and the number of messages posted to the thread.  `fetchResult` is the
outcome of `fetchMLBGame` at the new token (`none`: it returned null). -/
structure MsgEffect where
  newLast : Option String
  fetches : Nat
  posts : Nat
  deriving DecidableEq, Repr

/-- The `message` handler: process only a truthy token different from
`lastTimestamp`; record it as seen *before* fetching; post via
`updateThread` only when the fetch succeeded. -/
def onMessage (last : Option String) (u : WsUpdate) (fetchResult : Option GameSnapshot) :
    MsgEffect :=
  match u.timeStamp with
  | none => ⟨last, 0, 0⟩
  | some t =>
    if some t = last then ⟨last, 0, 0⟩
    else
      match fetchResult with
      | none => ⟨some t, 1, 0⟩
      | some gd => ⟨some t, 1, if (updateThreadMsg gd u).isSome then 1 else 0⟩

/-! ### Concrete Session Tracker runs used by counterexamples and witnesses -/

/-- The manager at module load: empty registry, no timers. -/
def lgm0 : LGM := ⟨[], [], [], 0⟩

/-- After a successful `startTracking "g1"` (initial fetch succeeded). -/
def lgmStarted : LGM := (startTracking lgm0 "g1" "chan1" true).2.1

/-- After the websocket `open` event fired for `"g1"` (keepalive running). -/
def lgmOpened : LGM := onOpen lgmStarted "g1"

/-! ### Claims about the Session Tracker -/

/-- Claim C3 (counterexample): the claim says a failed/broken update stream
never removes the Session, which keeps relying on its liveness timer.  But
a broken stream fires the websocket `close` event, whose handler calls
`stopTracking`: on the concrete tracked game `"g1"` the session is present
before the close event and gone from the registry right after it. -/
theorem close_event_removes_session :
    (mapGet "g1" lgmOpened.activeGames).isSome = true ∧
    mapGet "g1" (onClose lgmOpened "g1").activeGames = none := by
  constructor
  · decide
  · exact stopTracking_removes _ "g1"

/-- Claim C3 (amended): a subscription *error* event is logged only — no
reconnection is attempted and the manager state (registry and timers) is
untouched; but when the subscription *closes* (as a broken stream does),
the `close` handler calls `stopTracking` and the Session is removed from
the registry immediately rather than being left to the liveness timer. -/
theorem stream_failure_behavior :
    (∀ (s : LGM) (g : String), onError s g = s) ∧
    (∀ (s : LGM) (g : String), mapGet g (onClose s g).activeGames = none) := by
  refine ⟨fun s g => rfl, fun s g => ?_⟩
  exact stopTracking_removes _ g

/-- Claim C4 (counterexample): the claim says `stop` cancels all timers of
the Session (keepalive interval, status-check timer, pending delayed
callbacks).  On the concrete run (start `"g1"`, websocket open, then
`stopTracking "g1"`) both the status-check interval and the keepalive
interval are still live after `stopTracking` returns: the status-check
handle is never stored anywhere `stopTracking` can reach, and the stored
keepalive handle is the `null` captured at registration time. -/
theorem stopTracking_leaves_timers :
    (stopTracking lgmOpened "g1").1.timers =
      [Timer.statusCheck "g1", Timer.keepAlive "g1" 0] := by decide

/-- Claim C4 (amended): `stop` is callable in any state and idempotent at the
registry level — on an untracked id it returns unchanged with no cleanup
actions, and a second call after a first performs no action and no state
change; it closes the subscription and removes the Session, but it cancels
neither the status-check interval (which only self-cancels at its next
firing, when it finds the session gone) nor the live keepalive interval
(whose stored handle is the captured `null`). -/
theorem stopTracking_idempotent :
    (∀ (s : LGM) (g : String), mapGet g s.activeGames = none → stopTracking s g = (s, [])) ∧
    (∀ (s : LGM) (g : String),
        stopTracking (stopTracking s g).1 g = ((stopTracking s g).1, [])) ∧
    (∀ (s : LGM) (g : String) (b : Bool), mapGet g s.activeGames = none →
        statusCheckFire s g b = { s with timers := eraseTimer (.statusCheck g) s.timers }) ∧
    Timer.statusCheck "g1" ∈ (stopTracking lgmOpened "g1").1.timers := by
  refine ⟨fun s g h => ?_, fun s g => ?_, fun s g b h => ?_, by decide⟩
  · simp [stopTracking, h]
  · have h2 := stopTracking_removes s g
    generalize hgen : (stopTracking s g).1 = s1 at h2 ⊢
    simp [stopTracking, h2]
  · simp [statusCheckFire, h]

/-- Claim C4 (witness) for the hypotheses of `stopTracking_idempotent`:
`"g9"` is not tracked in the initial state, so `stop` is a no-op and a
status-check firing for it merely clears its own interval. -/
theorem stopTracking_idempotent_witness :
    (mapGet "g9" lgm0.activeGames = none ∧ stopTracking lgm0 "g9" = (lgm0, [])) ∧
    (mapGet "g9" lgm0.activeGames = none ∧
      statusCheckFire lgm0 "g9" false =
        { lgm0 with timers := eraseTimer (.statusCheck "g9") lgm0.timers }) :=
  ⟨⟨by decide, stopTracking_idempotent.1 lgm0 "g9" (by decide)⟩,
   ⟨by decide, stopTracking_idempotent.2.2.1 lgm0 "g9" false (by decide)⟩⟩

/-- Claim C6: `startTracking` on an already-tracked id returns the
already-tracked failure, leaves the manager state unchanged, and issues no
network call (fetch count 0) — so at most one Session exists per game id. -/
theorem startTracking_rejects_duplicate (s : LGM) (g chan : String) (ok : Bool)
    (h : (mapGet g s.activeGames).isSome = true) :
    startTracking s g chan ok = (.alreadyTracked, s, 0) := by
  simp [startTracking, h]

/-- Claim C6 (witness): starting `"g1"` again after `lgmStarted` is rejected
with no state change and no fetch. -/
theorem startTracking_rejects_duplicate_witness :
    (mapGet "g1" lgmStarted.activeGames).isSome = true ∧
    startTracking lgmStarted "g1" "chan2" true = (.alreadyTracked, lgmStarted, 0) :=
  ⟨by decide, startTracking_rejects_duplicate lgmStarted "g1" "chan2" true (by decide)⟩

/-- Claim C7: a message whose token equals the last-seen token triggers no
detail fetch and no post; a message with a new token triggers exactly one
detail fetch and at most one post, and the token becomes last-seen even
when the fetch fails (`fetchResult` arbitrary, including `none`). -/
theorem onMessage_dedup (last : Option String) (u : WsUpdate)
    (f : Option GameSnapshot) (t : String) (ht : u.timeStamp = some t) :
    (last = some t → onMessage last u f = ⟨last, 0, 0⟩) ∧
    (last ≠ some t →
      (onMessage last u f).fetches = 1 ∧ (onMessage last u f).posts ≤ 1 ∧
      (onMessage last u f).newLast = some t) := by
  constructor
  · intro hl
    simp [onMessage, ht, hl]
  · intro hl
    have hne : ¬ some t = last := fun h => hl h.symm
    cases f with
    | none => simp [onMessage, ht, hne]
    | some gd =>
      refine ⟨by simp [onMessage, ht, hne], ?_, by simp [onMessage, ht, hne]⟩
      simp only [onMessage, ht, if_neg hne]
      split <;> simp

/-- Claim C7 (witness): on a fresh session (`lastTimestamp = null`) a message
with token `"20240101_120000"` whose detail fetch fails is still recorded
as seen, with one fetch and no post; resending the same token afterwards
does nothing. -/
theorem onMessage_dedup_witness :
    (WsUpdate.mk (some "20240101_120000") (some ["x"]) none).timeStamp =
        some "20240101_120000" ∧
    ((none = some "20240101_120000" →
        onMessage none (WsUpdate.mk (some "20240101_120000") (some ["x"]) none) none =
          ⟨none, 0, 0⟩) ∧
      (none ≠ some "20240101_120000" →
        (onMessage none (WsUpdate.mk (some "20240101_120000") (some ["x"]) none) none).fetches = 1 ∧
        (onMessage none (WsUpdate.mk (some "20240101_120000") (some ["x"]) none) none).posts ≤ 1 ∧
        (onMessage none (WsUpdate.mk (some "20240101_120000") (some ["x"]) none) none).newLast =
          some "20240101_120000")) :=
  ⟨rfl, onMessage_dedup none (WsUpdate.mk (some "20240101_120000") (some ["x"]) none)
    none "20240101_120000" rfl⟩

/-- Claim C10: when the fetched detail has no current play, or the update
message carries no `gameEvents` (absent or empty), `updateThread` returns
before posting — no channel output. -/
theorem updateThread_no_output (gd : GameSnapshot) (u : WsUpdate)
    (h : gd.currentPlay = none ∨ u.gameEvents = none ∨ u.gameEvents = some []) :
    updateThreadMsg gd u = none := by
  rcases h with h | h | h
  · simp [updateThreadMsg, h]
  · cases hc : gd.currentPlay <;> simp [updateThreadMsg, hc, h]
  · cases hc : gd.currentPlay <;> simp [updateThreadMsg, hc, h]

/-- Claim C10 (witness): a tokened update with an empty `gameEvents` list on
a snapshot that does have a current play posts nothing. -/
theorem updateThread_no_output_witness :
    ((GameSnapshot.mk (some ⟨none⟩) ⟨none, none, none, none⟩ "NYY" "BOS").currentPlay = none ∨
      (WsUpdate.mk (some "t1") (some []) none).gameEvents = none ∨
      (WsUpdate.mk (some "t1") (some []) none).gameEvents = some []) ∧
    updateThreadMsg (GameSnapshot.mk (some ⟨none⟩) ⟨none, none, none, none⟩ "NYY" "BOS")
      (WsUpdate.mk (some "t1") (some []) none) = none :=
  ⟨Or.inr (Or.inr rfl),
   updateThread_no_output _ _ (Or.inr (Or.inr rfl))⟩

/-! ## ESPNAPIService: the feed client and its rate limiter

`makeRequest` keeps a single `lastRequestTime`; a call arriving within
`rateLimit` milliseconds of it sleeps out the remainder before issuing the
request and then stamps `lastRequestTime`.  `LiveGameManager.fetchMLBGame`
does **not** go through this service: it calls `node-fetch` directly
against the MLB stats API. -/

/-- `ESPN_RATE_LIMIT` default: 100 ms. -/
def rateLimit : Nat := 100

/-- The limiter state: `this.lastRequestTime` (0 at construction). -/
structure Limiter where
  lastRequestTime : Nat
  deriving DecidableEq, Repr

/-- The admission logic of `makeRequest`: given the arrival instant `now`,
return the instant the request is actually issued and the updated limiter
(`lastRequestTime := Date.now()` right after the wait). -/
def rateGate (lim : Limiter) (now : Nat) : Nat × Limiter :=
  let elapsed := now - lim.lastRequestTime
  let issue := if elapsed < rateLimit then now + (rateLimit - elapsed) else now
  (issue, ⟨issue⟩)

/-- Issue instants of a whole sequence of sequential `makeRequest` calls,
given their arrival instants. -/
def rateGateAll (lim : Limiter) : List Nat → List Nat
  | [] => []
  | now :: rest =>
    let (issue, lim1) := rateGate lim now
    issue :: rateGateAll lim1 rest

/-- An outbound HTTP request: through the shared ESPN limiter, or a direct
`fetch` that waits on nothing. -/
inductive Outbound where
  | limited (url : String)
  | direct (url : String)
  deriving DecidableEq, Repr

/-- Does this call go through `ESPNAPIService.makeRequest`? -/
def Outbound.isLimited : Outbound → Bool
  | .limited _ => true
  | .direct _ => false

/-- `ESPNAPIService` base URL. -/
def espnBaseURL : String := "https://site.api.espn.com/apis/site/v2/sports"

/-- `LiveGameManager` MLB base URL. -/
def mlbBaseURL : String := "https://statsapi.mlb.com/api/v1.1/game"

/-- The outbound calls of `ESPNAPIService.getScoreboard` (one request,
through `makeRequest`). -/
def getScoreboardCalls (sport league : String) (date : Option String) : List Outbound :=
  [Outbound.limited (espnBaseURL ++ "/" ++ sport ++ "/" ++ league ++ "/scoreboard" ++
    (match date with
     | some d => "?dates=" ++ d
     | none => ""))]

/-- The outbound calls of `LiveGameManager.fetchMLBGame` (one plain
`fetch`, not routed through `ESPNAPIService`). -/
def fetchMLBGameCalls (gameId : String) (timestamp : Option String) : List Outbound :=
  [Outbound.direct (mlbBaseURL ++ "/" ++ gameId ++ "/feed/live" ++
    (match timestamp with
     | some t => "?timecode=" ++ t
     | none => ""))]

/-- Helper: a single admission never issues closer than `rateLimit` after
the previous issue, provided the clock did not run backwards. -/
theorem rateGate_spacing (lim : Limiter) (now : Nat) (h : lim.lastRequestTime ≤ now) :
    lim.lastRequestTime + rateLimit ≤ (rateGate lim now).1 := by
  unfold rateGate
  dsimp only
  split
  · next hlt => omega
  · next hge => omega

/-- Claim C5 (counterexample): the Session Tracker's one outbound call in
`fetchMLBGame` is a direct `fetch`, not routed through the shared
`makeRequest` limiter — so not every outbound provider call passes through
the single shared rate limiter. -/
theorem fetchMLBGame_bypasses_limiter :
    (fetchMLBGameCalls "717465" none).all Outbound.isLimited = false ∧
    fetchMLBGameCalls "717465" none =
      [Outbound.direct "https://statsapi.mlb.com/api/v1.1/game/717465/feed/live"] := by
  constructor <;> rfl

/-- Claim C5 (amended): consecutive calls through `ESPNAPIService.makeRequest`
(the Reconciler's path, e.g. `getScoreboard`) are spaced at least
`rateLimit` apart — the next issue instant is at least `rateLimit` after
the stamped previous one — but the Session Tracker's `fetchMLBGame`
requests bypass the limiter entirely (direct `fetch` against a different
provider). -/
theorem limiter_spacing (lim : Limiter) (now1 now2 : Nat)
    (_h1 : lim.lastRequestTime ≤ now1) (h2 : (rateGate lim now1).1 ≤ now2) :
    rateLimit ≤ (rateGate (rateGate lim now1).2 now2).1 - (rateGate lim now1).1 ∧
    (∀ sport league : String, ∀ date : Option String,
      (getScoreboardCalls sport league date).all Outbound.isLimited = true) ∧
    (∀ gameId : String, ∀ ts : Option String,
      (fetchMLBGameCalls gameId ts).all Outbound.isLimited = false) := by
  refine ⟨?_, fun _ _ _ => rfl, fun _ _ => rfl⟩
  have hs := rateGate_spacing (rateGate lim now1).2 now2 (by simpa [rateGate] using h2)
  have hlast : (rateGate lim now1).2.lastRequestTime = (rateGate lim now1).1 := by
    simp [rateGate]
  omega

/-- Claim C5 (witness): with the limiter stamped at 0, calls arriving at 30
and 150 are issued at 100 and 200 — 100 ms apart. -/
theorem limiter_spacing_witness :
    ((⟨0⟩ : Limiter).lastRequestTime ≤ 30 ∧ (rateGate ⟨0⟩ 30).1 ≤ 150) ∧
    (rateLimit ≤ (rateGate (rateGate ⟨0⟩ 30).2 150).1 - (rateGate ⟨0⟩ 30).1 ∧
      (∀ sport league : String, ∀ date : Option String,
        (getScoreboardCalls sport league date).all Outbound.isLimited = true) ∧
      (∀ gameId : String, ∀ ts : Option String,
        (fetchMLBGameCalls gameId ts).all Outbound.isLimited = false)) :=
  ⟨⟨by decide, by decide⟩, limiter_spacing ⟨0⟩ 30 150 (by decide) (by decide)⟩

/-! ## ScoreCenterManager (the Reconciler)

`scanAndUpdateGames` is one reconciliation tick.  The embedding carries the
manager's two `Map`s (`activeGames`, `categories`), the guild channel
cache, a fresh-id counter for created channels (`chN`), the list of
scheduled deletions created by the dead `state === 'post'` branch of
`updateGameChannel`, and returns the list of Discord platform calls the
tick issued.  Platform calls succeed (the claims under test are about
which calls are issued and in which order, not about failure recovery). -/

/-- One competitor of an ESPN event (`competition.competitors[i]`).  The
`score` field is a string in the feed; a falsy (empty) score is defaulted
to `0` by `|| 0`. -/
structure Competitor where
  abbreviation : String
  displayName : String
  score : String
  deriving DecidableEq, Repr

/-- One ESPN scoreboard event: id, `status.type.state` (`pre`/`in`/`post`),
`status.type.detail`, and the two competitors. -/
structure GameEvent where
  id : String
  state : String
  detail : String
  away : Competitor
  home : Competitor
  deriving DecidableEq, Repr

/-- One entry of the `sports` configuration array. -/
structure SportInfo where
  name : String
  sport : String
  league : String
  emoji : String
  deriving DecidableEq, Repr

/-- The four monitored leagues, in scan order. -/
def sportsList : List SportInfo :=
  [⟨"NFL", "football", "nfl", "🏈"⟩,
   ⟨"NBA", "basketball", "nba", "🏀"⟩,
   ⟨"NHL", "hockey", "nhl", "🏒"⟩,
   ⟨"MLB", "baseball", "mlb", "⚾"⟩]

/-- A channel in the guild cache: category or text channel, with name,
topic and parent. -/
structure Channel where
  id : String
  isCategory : Bool
  name : String
  topic : String
  parentId : Option String
  deriving DecidableEq, Repr

/-- The record `ScoreCenterManager` keeps per provisioned game. -/
structure GameReg where
  channelId : String
  categoryId : String
  sport : String
  league : String
  deriving DecidableEq, Repr

/-- A platform (Discord) call issued by the reconciler. -/
inductive PCall where
  | createCategory (name id : String)
  | createChannel (id name topic parentId : String)
  | rename (chan name : String)
  | retopic (chan topic : String)
  | send (chan msg : String)
  | deleteChan (id : String)
  | deleteCat (id : String)
  deriving DecidableEq, Repr

/-- Full reconciler state: the manager's two maps, the guild cache, the
fresh channel-id counter, and the pending `setTimeout` deletions
(channelId, gameId). -/
structure SCM where
  activeGames : List (String × GameReg)
  categories : List (String × String)
  cache : List Channel
  fresh : Nat
  pending : List (String × String)
  deriving DecidableEq, Repr

/-- The manager right after construction, in an empty guild. -/
def scm0 : SCM := ⟨[], [], [], 0, []⟩

/-- `guild.channels.cache.get(id)`. -/
def cacheGet (id : String) : List Channel → Option Channel
  | [] => none
  | c :: rest => if c.id = id then some c else cacheGet id rest

/-- Removal of a deleted channel from the guild cache. -/
def cacheRemove (id : String) (cs : List Channel) : List Channel :=
  cs.filter (fun c => decide (¬ c.id = id))

/-- Effect of `channel.setName` + `channel.setTopic` on the cache. -/
def cacheSetNameTopic (id name topic : String) (cs : List Channel) : List Channel :=
  cs.map (fun c => if c.id = id then { c with name := name, topic := topic } else c)

/-- `guild.channels.cache.find(c => c.type === GuildCategory && c.name ===
categoryName)`. -/
def cacheFindCat (catName : String) : List Channel → Option Channel
  | [] => none
  | c :: rest =>
    if c.isCategory = true ∧ c.name = catName then some c else cacheFindCat catName rest

/-- Fresh id for a created channel or category. -/
def freshId (n : Nat) : String := "ch" ++ toString n

/-- `awayScore`/`homeScore`: `competitor.score || 0`. -/
def scoreOrZero (s : String) : String := if s = "" then "0" else s

/-- `.toLowerCase()`: lowercase every character (written over the string's
character list so it evaluates by kernel reduction). -/
def lowerStr (s : String) : String := ⟨s.data.map Char.toLower⟩

/-- The computed channel name
`"away-awayScore-homeScore-home".toLowerCase()`. -/
def channelNameOf (g : GameEvent) : String :=
  lowerStr (g.away.abbreviation ++ "-" ++ scoreOrZero g.away.score ++ "-" ++
    scoreOrZero g.home.score ++ "-" ++ g.home.abbreviation)

/-- The computed channel topic `"away @ home | status"`. -/
def topicOf (g : GameEvent) : String :=
  g.away.displayName ++ " @ " ++ g.home.displayName ++ " | " ++ g.detail

/-- The initial message sent into a freshly created game channel. -/
def initialMsgOf (g : GameEvent) : String :=
  "**" ++ g.away.displayName ++ "** " ++ scoreOrZero g.away.score ++ " - " ++
    scoreOrZero g.home.score ++ " **" ++ g.home.displayName ++ "**\n" ++ g.detail

/-- The category name for a sport. -/
def categoryNameOf (si : SportInfo) : String := si.emoji ++ " " ++ si.name ++ " Live Scores"

/-- `getOrCreateCategory`: reuse the mapped category when still cached
(early return, map untouched), else find one by name in the cache, else
create one (read-only at the top of the guild); the found or created id is
stored in the `categories` map. -/
def getOrCreateCategory (w : SCM) (si : SportInfo) : SCM × String × List PCall :=
  let catName := categoryNameOf si
  let fromMap : Option Channel :=
    match mapGet si.name w.categories with
    | some cid => cacheGet cid w.cache
    | none => none
  match fromMap with
  | some c => (w, c.id, [])
  | none =>
    match cacheFindCat catName w.cache with
    | some c => ({ w with categories := mapSet si.name c.id w.categories }, c.id, [])
    | none =>
      let cid := freshId w.fresh
      let cat : Channel := ⟨cid, true, catName, "", none⟩
      ({ w with
          cache := w.cache ++ [cat],
          fresh := w.fresh + 1,
          categories := mapSet si.name cid w.categories },
       cid, [.createCategory catName cid])

/-- `removeCategory`: when the sport has a mapped, still-cached category,
delete every cached channel whose parent is that category, then delete the
category; in every case drop the sport from the `categories` map.  The
registrations of deleted game channels are *not* touched here. -/
def removeCategory (w : SCM) (sportName : String) : SCM × List PCall :=
  match mapGet sportName w.categories with
  | none => (w, [])
  | some cid =>
    match cacheGet cid w.cache with
    | none => ({ w with categories := mapDelete sportName w.categories }, [])
    | some _ =>
      let children := w.cache.filter (fun c => decide (c.parentId = some cid))
      let cacheAfter :=
        cacheRemove cid (w.cache.filter (fun c => decide (¬ c.parentId = some cid)))
      ({ w with cache := cacheAfter, categories := mapDelete sportName w.categories },
       children.map (fun c => PCall.deleteChan c.id) ++ [PCall.deleteCat cid])

/-- `updateGameChannel`: find the registered channel (registry entry plus
guild cache); create, post the initial summary and register when absent;
otherwise unconditionally `setName` and `setTopic`.  A game whose
`status.type.state` is `post` additionally gets a 1-hour delayed deletion
scheduled (dead code from the scan path, which filters `post` out). -/
def updateGameChannel (w : SCM) (catId : String) (g : GameEvent) (si : SportInfo) :
    SCM × List PCall :=
  let name := channelNameOf g
  let topic := topicOf g
  let existing : Option Channel :=
    match mapGet g.id w.activeGames with
    | some reg => cacheGet reg.channelId w.cache
    | none => none
  match existing with
  | none =>
    let cid := freshId w.fresh
    let ch : Channel := ⟨cid, false, name, topic, some catId⟩
    let w1 := { w with
                cache := w.cache ++ [ch],
                fresh := w.fresh + 1,
                activeGames := mapSet g.id ⟨cid, catId, si.sport, si.league⟩ w.activeGames }
    let w2 := if g.state = "post" then { w1 with pending := w1.pending ++ [(cid, g.id)] } else w1
    (w2, [.createChannel cid name topic catId, .send cid (initialMsgOf g)])
  | some ch =>
    let w1 := { w with cache := cacheSetNameTopic ch.id name topic w.cache }
    let w2 := if g.state = "post" then { w1 with pending := w1.pending ++ [(ch.id, g.id)] } else w1
    (w2, [.rename ch.id name, .retopic ch.id topic])

/-- The filter for relevant games: `state === 'in' || state === 'pre'`. -/
def isLiveOrPre (g : GameEvent) : Bool :=
  decide (g.state = "in") || decide (g.state = "pre")

/-- The per-game loop body of `scanAndUpdateGames` over the live games. -/
def updateGamesFold : List GameEvent → SCM → String → SportInfo → SCM × List PCall
  | [], w, _, _ => (w, [])
  | g :: rest, w, catId, si =>
    let r1 := updateGameChannel w catId g si
    let r2 := updateGamesFold rest r1.1 catId si
    (r2.1, r1.2 ++ r2.2)

/-- Result of `espnAPI.getScoreboard` for one league: a thrown
error/rejection, or a parsed event list (`ok []` also covers a payload
with no `events`). -/
inductive FeedResult where
  | err
  | ok (events : List GameEvent)

/-- The per-sport body of `scanAndUpdateGames`: on a feed error the sport
is skipped (per-sport `catch`); with no events or no live events the
category is removed; otherwise ensure the category and update every live
game's channel, collecting their ids into the tick's active set. -/
def processSport (fetch : String → FeedResult) (si : SportInfo) (w : SCM) :
    SCM × List String × List PCall :=
  match fetch si.league with
  | .err => (w, [], [])
  | .ok events =>
    if events = [] then
      let r := removeCategory w si.name
      (r.1, [], r.2)
    else
      let liveGames := events.filter isLiveOrPre
      if liveGames = [] then
        let r := removeCategory w si.name
        (r.1, [], r.2)
      else
        let r1 := getOrCreateCategory w si
        let r2 := updateGamesFold liveGames r1.1 r1.2.1 si
        (r2.1, liveGames.map (fun g => g.id), r1.2.2 ++ r2.2)

/-- The loop over the four sports, accumulating active game ids and calls. -/
def processSports (fetch : String → FeedResult) :
    List SportInfo → SCM → SCM × List String × List PCall
  | [], w => (w, [], [])
  | si :: rest, w =>
    let r1 := processSport fetch si w
    let r2 := processSports fetch rest r1.1
    (r2.1, r1.2.1 ++ r2.2.1, r1.2.2 ++ r2.2.2)

/-- The loop body of `cleanupInactiveGames` over a snapshot of the registry
entries: a registered game missing from the tick's active set has its
cached channel deleted (if still cached) and its registration removed. -/
def cleanupGo : List (String × GameReg) → List String → SCM → SCM × List PCall
  | [], _, w => (w, [])
  | (gid, reg) :: rest, ids, w =>
    if ids.contains gid then cleanupGo rest ids w
    else
      match cacheGet reg.channelId w.cache with
      | some _ =>
        let w1 := { w with
                    cache := cacheRemove reg.channelId w.cache,
                    activeGames := mapDelete gid w.activeGames }
        let r := cleanupGo rest ids w1
        (r.1, PCall.deleteChan reg.channelId :: r.2)
      | none =>
        cleanupGo rest ids { w with activeGames := mapDelete gid w.activeGames }

/-- `cleanupInactiveGames(guild, activeGameIds)`. -/
def cleanupInactiveGames (w : SCM) (ids : List String) : SCM × List PCall :=
  cleanupGo w.activeGames ids w

/-- `scanAndUpdateGames(guild)`: one reconciliation tick. -/
def scanAndUpdateGames (fetch : String → FeedResult) (w : SCM) : SCM × List PCall :=
  let r1 := processSports fetch sportsList w
  let r2 := cleanupInactiveGames r1.1 r1.2.1
  (r2.1, r1.2.2 ++ r2.2)

/-- The channel-deletion loop of `cleanup`: every registered game channel
still in the cache is deleted. -/
def cleanupChannels : List (String × GameReg) → SCM → SCM × List PCall
  | [], w => (w, [])
  | (_, reg) :: rest, w =>
    match cacheGet reg.channelId w.cache with
    | some _ =>
      let r := cleanupChannels rest { w with cache := cacheRemove reg.channelId w.cache }
      (r.1, PCall.deleteChan reg.channelId :: r.2)
    | none => cleanupChannels rest w

/-- The category-deletion loop of `cleanup`: every mapped category still in
the cache is deleted. -/
def cleanupCategories : List (String × String) → SCM → SCM × List PCall
  | [], w => (w, [])
  | (_, cid) :: rest, w =>
    match cacheGet cid w.cache with
    | some _ =>
      let r := cleanupCategories rest { w with cache := cacheRemove cid w.cache }
      (r.1, PCall.deleteCat cid :: r.2)
    | none => cleanupCategories rest w

/-- `cleanup(guild)`: delete all registered game channels, then all mapped
categories, then clear both maps. -/
def cleanup (w : SCM) : SCM × List PCall :=
  let r1 := cleanupChannels w.activeGames w
  let r2 := cleanupCategories r1.1.categories r1.1
  ({ r2.1 with activeGames := [], categories := [] }, r1.2 ++ r2.2)

/-! ### Concrete reconciler scenarios -/

/-- A live NFL game as the scoreboard reports it. -/
def gIn : GameEvent :=
  ⟨"401547", "in", "Q1 10:00",
   ⟨"DAL", "Dallas Cowboys", "7"⟩, ⟨"NYG", "New York Giants", "3"⟩⟩

/-- The same game after it went final (`state = "post"`). -/
def gPost : GameEvent :=
  ⟨"401547", "post", "Final",
   ⟨"DAL", "Dallas Cowboys", "24"⟩, ⟨"NYG", "New York Giants", "17"⟩⟩

/-- A feed with `g` as the only NFL event and no events elsewhere. -/
def feedOne (g : GameEvent) : String → FeedResult :=
  fun lg => if lg = "nfl" then .ok [g] else .ok []

/-- A feed where the NFL scoreboard request fails and the other leagues
report no events. -/
def feedErrNFL : String → FeedResult :=
  fun lg => if lg = "nfl" then .err else .ok []

/-- The reconciler state after one tick over the live-game snapshot. -/
def scmTick1 : SCM := (scanAndUpdateGames (feedOne gIn) scm0).1

/-- Claim C1 (counterexample): a second tick over an unchanged snapshot is
claimed to issue zero platform calls, the stored name/topic signature
matching the computed one.  The code stores no signature: the second tick
issues a rename and a retopic call for the game's channel. -/
theorem second_tick_issues_calls :
    (scanAndUpdateGames (feedOne gIn) scmTick1).2 =
      [PCall.rename "ch1" "dal-7-3-nyg",
       PCall.retopic "ch1" "Dallas Cowboys @ New York Giants | Q1 10:00"] := by
  decide

/-- Claim C2 (counterexample): when the only NFL event reaches `post`, the
claim says the reconciler schedules a delayed deletion for its channel.
Instead the tick deletes the channel (and the category) immediately and
records no scheduled deletion: `post` events are filtered out before
`updateGameChannel`, so its scheduling branch never runs. -/
theorem final_event_deleted_immediately :
    (scanAndUpdateGames (feedOne gPost) scmTick1).2 =
      [PCall.deleteChan "ch1", PCall.deleteCat "ch0"] ∧
    (scanAndUpdateGames (feedOne gPost) scmTick1).1.pending = [] ∧
    (scanAndUpdateGames (feedOne gPost) scmTick1).1.activeGames = [] := by
  refine ⟨by decide, by decide, by decide⟩

/-- Claim C8 (counterexample): when the NFL scoreboard fetch fails, the claim
says all previously provisioned NFL state is left untouched.  But the
failed league contributes no ids to the tick's active set, so the
end-of-tick sweep deletes its provisioned channel and drops its
registration in that very tick. -/
theorem feed_error_still_deletes_channels :
    (scanAndUpdateGames feedErrNFL scmTick1).2 = [PCall.deleteChan "ch1"] ∧
    (scanAndUpdateGames feedErrNFL scmTick1).1.activeGames = [] := by
  refine ⟨by decide, by decide⟩

/-! ### The state after a first tick over a single live NFL game,
for an arbitrary game `g` -/

/-- The NFL category as created by the first tick. -/
def catChNFL : Channel := ⟨"ch0", true, "🏈 NFL Live Scores", "", none⟩

/-- The game channel as created by the first tick for game `g`. -/
def gameCh (g : GameEvent) : Channel :=
  ⟨"ch1", false, channelNameOf g, topicOf g, some "ch0"⟩

/-- The reconciler state after the first tick over a snapshot whose only
event is the live game `g` (NFL; other leagues empty). -/
def scmAfterTick1 (g : GameEvent) : SCM :=
  ⟨[(g.id, ⟨"ch1", "ch0", "football", "nfl"⟩)], [("NFL", "ch0")],
   [catChNFL, gameCh g], 2, []⟩

/-- Shared helper: the first tick over `feedOne g` from the fresh manager
creates the category and the game channel and posts the summary. -/
theorem tick1_run (g : GameEvent) (hin : g.state = "in") :
    scanAndUpdateGames (feedOne g) scm0 =
      (scmAfterTick1 g,
       [PCall.createCategory "🏈 NFL Live Scores" "ch0",
        PCall.createChannel "ch1" (channelNameOf g) (topicOf g) "ch0",
        PCall.send "ch1" (initialMsgOf g)]) := by
  simp [scanAndUpdateGames, processSports, sportsList, processSport, feedOne, removeCategory,
    getOrCreateCategory, updateGamesFold, updateGameChannel, cleanupInactiveGames, cleanupGo,
    scm0, mapGet, mapSet, mapDelete, cacheGet, cacheFindCat, freshId, isLiveOrPre, hin,
    categoryNameOf, cacheSetNameTopic, cacheRemove, scmAfterTick1, catChNFL, gameCh,
    show ("ch" ++ toString (0:Nat) : String) = "ch0" from rfl,
    show ("ch" ++ toString (1:Nat) : String) = "ch1" from rfl]

/-- Claim C1 (amended): a second tick over the unchanged snapshot issues zero
create and zero delete calls, but it is not silent: lacking any stored
name/topic signature, it re-issues a rename and a retopic call for the
existing game channel (the `else` branch of `updateGameChannel` calls
`setName`/`setTopic` unconditionally). -/
theorem second_tick_only_renames (g : GameEvent) (hin : g.state = "in") :
    (scanAndUpdateGames (feedOne g) (scanAndUpdateGames (feedOne g) scm0).1).2 =
      [PCall.rename "ch1" (channelNameOf g), PCall.retopic "ch1" (topicOf g)] := by
  rw [tick1_run g hin]
  simp [scanAndUpdateGames, processSports, sportsList, processSport, feedOne, removeCategory,
    getOrCreateCategory, updateGamesFold, updateGameChannel, cleanupInactiveGames, cleanupGo,
    mapGet, mapSet, mapDelete, cacheGet, cacheFindCat, freshId, isLiveOrPre, hin,
    categoryNameOf, cacheSetNameTopic, cacheRemove, scmAfterTick1, catChNFL, gameCh]

/-- Claim C1 (witness): the second tick over the concrete live game `gIn`
issues exactly the rename and retopic calls. -/
theorem second_tick_only_renames_witness :
    gIn.state = "in" ∧
    (scanAndUpdateGames (feedOne gIn) (scanAndUpdateGames (feedOne gIn) scm0).1).2 =
      [PCall.rename "ch1" (channelNameOf gIn), PCall.retopic "ch1" (topicOf gIn)] :=
  ⟨rfl, second_tick_only_renames gIn rfl⟩

/-- Claim C2 (amended): `post` events are excluded from the relevant set
before `updateGameChannel` runs, so the scheduled-deletion branch is
unreachable from the scan; a provisioned channel whose event turns final
is instead deleted immediately in that same tick (here via the
zero-live-games category teardown), its registration is dropped by the
sweep, and no scheduled deletion is ever recorded. -/
theorem final_event_torn_down_immediately (g gp : GameEvent) (hin : g.state = "in")
    (_hid : gp.id = g.id) (hpost : gp.state = "post") :
    (scanAndUpdateGames (feedOne gp) (scanAndUpdateGames (feedOne g) scm0).1).2 =
      [PCall.deleteChan "ch1", PCall.deleteCat "ch0"] ∧
    (scanAndUpdateGames (feedOne gp) (scanAndUpdateGames (feedOne g) scm0).1).1.pending = [] ∧
    (scanAndUpdateGames (feedOne gp) (scanAndUpdateGames (feedOne g) scm0).1).1.activeGames
      = [] := by
  rw [tick1_run g hin]
  refine ⟨?_, ?_, ?_⟩ <;>
  simp [scanAndUpdateGames, processSports, sportsList, processSport, feedOne, removeCategory,
    getOrCreateCategory, updateGamesFold, updateGameChannel, cleanupInactiveGames, cleanupGo,
    mapGet, mapSet, mapDelete, cacheGet, cacheFindCat, freshId, isLiveOrPre, hpost,
    categoryNameOf, cacheSetNameTopic, cacheRemove, scmAfterTick1, catChNFL, gameCh]

/-- Claim C2 (witness): the concrete game `gIn` going final as `gPost` is
torn down immediately with nothing pending. -/
theorem final_event_torn_down_immediately_witness :
    (gIn.state = "in" ∧ gPost.id = gIn.id ∧ gPost.state = "post") ∧
    ((scanAndUpdateGames (feedOne gPost) (scanAndUpdateGames (feedOne gIn) scm0).1).2 =
        [PCall.deleteChan "ch1", PCall.deleteCat "ch0"] ∧
      (scanAndUpdateGames (feedOne gPost) (scanAndUpdateGames (feedOne gIn) scm0).1).1.pending
        = [] ∧
      (scanAndUpdateGames (feedOne gPost)
          (scanAndUpdateGames (feedOne gIn) scm0).1).1.activeGames = []) :=
  ⟨⟨rfl, rfl, rfl⟩, final_event_torn_down_immediately gIn gPost rfl rfl rfl⟩

/-- Claim C8 (amended): a feed error for a league skips that league's
category/channel processing and leaves its category mapping untouched, but
the league's game ids are missing from the tick's active set, so the
end-of-tick sweep deletes all of its provisioned channels and drops their
registrations in the same tick (they are recreated on the next successful
tick). -/
theorem feed_error_sweeps_channels (g : GameEvent) (hin : g.state = "in") :
    (scanAndUpdateGames feedErrNFL (scanAndUpdateGames (feedOne g) scm0).1).2 =
      [PCall.deleteChan "ch1"] ∧
    (scanAndUpdateGames feedErrNFL (scanAndUpdateGames (feedOne g) scm0).1).1.categories =
      [("NFL", "ch0")] ∧
    (scanAndUpdateGames feedErrNFL (scanAndUpdateGames (feedOne g) scm0).1).1.activeGames
      = [] := by
  rw [tick1_run g hin]
  refine ⟨?_, ?_, ?_⟩ <;>
  simp [scanAndUpdateGames, processSports, sportsList, processSport, feedErrNFL,
    removeCategory, getOrCreateCategory, updateGamesFold, updateGameChannel,
    cleanupInactiveGames, cleanupGo, mapGet, mapSet, mapDelete, cacheGet, cacheFindCat,
    freshId, isLiveOrPre, categoryNameOf, cacheSetNameTopic, cacheRemove,
    scmAfterTick1, catChNFL, gameCh]

/-- Claim C8 (witness): the concrete game `gIn` followed by an NFL feed
error: its channel is swept, the category mapping survives. -/
theorem feed_error_sweeps_channels_witness :
    gIn.state = "in" ∧
    ((scanAndUpdateGames feedErrNFL (scanAndUpdateGames (feedOne gIn) scm0).1).2 =
        [PCall.deleteChan "ch1"] ∧
      (scanAndUpdateGames feedErrNFL (scanAndUpdateGames (feedOne gIn) scm0).1).1.categories =
        [("NFL", "ch0")] ∧
      (scanAndUpdateGames feedErrNFL (scanAndUpdateGames (feedOne gIn) scm0).1).1.activeGames
        = []) :=
  ⟨rfl, feed_error_sweeps_channels gIn rfl⟩

/-! ### Teardown ordering (C9) -/

/-- Call `a` is issued strictly before call `b` in the trace `tr`. -/
def before (tr : List PCall) (a b : PCall) : Prop :=
  ∃ l1 l2 l3, tr = l1 ++ a :: (l2 ++ b :: l3)

/-- Anything in the first part of a concatenation comes before anything in
the second part. -/
theorem before_append {xs ys : List PCall} {a b : PCall} (ha : a ∈ xs) (hb : b ∈ ys) :
    before (xs ++ ys) a b := by
  obtain ⟨s, t, rfl⟩ := List.append_of_mem ha
  obtain ⟨u, v, rfl⟩ := List.append_of_mem hb
  exact ⟨s, t ++ u, v, by simp⟩

/-- Unfolding lemma for `cacheRemove` on a cons cell. -/
theorem cacheRemove_cons (b : String) (c : Channel) (rest : List Channel) :
    cacheRemove b (c :: rest) =
      if c.id = b then cacheRemove b rest else c :: cacheRemove b rest := by
  by_cases hcb : c.id = b <;> simp [cacheRemove, hcb]

/-- Removal of a channel from the cache leaves lookups of other ids
unchanged. -/
theorem cacheGet_cacheRemove_ne (a b : String) (cs : List Channel) (h : ¬ a = b) :
    cacheGet a (cacheRemove b cs) = cacheGet a cs := by
  induction cs with
  | nil => rfl
  | cons c rest ih =>
    rw [cacheRemove_cons]
    by_cases hcb : c.id = b
    · have hca : ¬ c.id = a := fun hc => h (by rw [← hc, hcb])
      rw [if_pos hcb, ih]
      simp only [cacheGet]
      rw [if_neg hca]
    · rw [if_neg hcb]
      simp only [cacheGet]
      rw [ih]

/-- A cached channel is found by its id. -/
theorem cacheGet_isSome_of_mem (c : Channel) (cs : List Channel) (h : c ∈ cs) :
    (cacheGet c.id cs).isSome = true := by
  induction cs with
  | nil => cases h
  | cons c0 rest ih =>
    by_cases h0 : c0.id = c.id
    · simp [cacheGet, h0]
    · rcases List.mem_cons.mp h with rfl | hmem
      · exact absurd rfl h0
      · simp [cacheGet, h0, ih hmem]

/-- The channel-deletion phase of `cleanup` emits only channel deletes. -/
theorem cleanupChannels_trace_shape (entries : List (String × GameReg)) :
    ∀ (w : SCM) (x : PCall), x ∈ (cleanupChannels entries w).2 →
      ∃ i, x = PCall.deleteChan i := by
  induction entries with
  | nil => intro w x hx; cases hx
  | cons p rest ih =>
    intro w x hx
    obtain ⟨g0, r0⟩ := p
    cases hch : cacheGet r0.channelId w.cache with
    | some ch =>
      simp only [cleanupChannels, hch] at hx
      rcases List.mem_cons.mp hx with rfl | hmem
      · exact ⟨r0.channelId, rfl⟩
      · exact ih _ _ hmem
    | none =>
      simp only [cleanupChannels, hch] at hx
      exact ih _ _ hx

/-- Every registered game channel still in the cache has its delete call
emitted by the channel-deletion phase of `cleanup`. -/
theorem cleanupChannels_mem (entries : List (String × GameReg)) :
    ∀ (w : SCM) (gid : String) (reg : GameReg), (gid, reg) ∈ entries →
      (cacheGet reg.channelId w.cache).isSome = true →
      PCall.deleteChan reg.channelId ∈ (cleanupChannels entries w).2 := by
  induction entries with
  | nil => intro w gid reg hmem _; cases hmem
  | cons p rest ih =>
    intro w gid reg hmem hsome
    obtain ⟨g0, r0⟩ := p
    cases hch : cacheGet r0.channelId w.cache with
    | some ch =>
      simp only [cleanupChannels, hch]
      rcases List.mem_cons.mp hmem with heq | hmem2
      · injection heq with h1 h2
        subst h2
        exact List.mem_cons_self _ _
      · by_cases he : reg.channelId = r0.channelId
        · rw [he]
          exact List.mem_cons_self _ _
        · refine List.mem_cons_of_mem _ (ih _ gid reg hmem2 ?_)
          simpa [cacheGet_cacheRemove_ne _ _ _ he] using hsome
    | none =>
      simp only [cleanupChannels, hch]
      rcases List.mem_cons.mp hmem with heq | hmem2
      · injection heq with h1 h2
        subst h2
        rw [hch] at hsome
        cases hsome
      · exact ih _ gid reg hmem2 hsome

/-- Claim C9: whenever a category is deleted, every child channel has its
delete call issued first.  Conjunct 1: in `removeCategory` (the
zero-relevant-events per-league teardown) every cached channel whose
parent is the category is deleted before the category delete.  Conjunct 2:
in `cleanup` (the full teardown) every registered child channel of a
category whose delete is attempted is deleted before it — all channel
deletes are issued in a first phase, categories only afterwards. -/
theorem teardown_children_first :
    (∀ (w : SCM) (sport cid : String) (c : Channel),
        mapGet sport w.categories = some cid →
        (cacheGet cid w.cache).isSome = true →
        c ∈ w.cache → c.parentId = some cid →
        before (removeCategory w sport).2 (PCall.deleteChan c.id) (PCall.deleteCat cid)) ∧
    (∀ (w : SCM) (c : Channel) (gid : String) (reg : GameReg) (cid : String),
        (gid, reg) ∈ w.activeGames → reg.channelId = c.id →
        c ∈ w.cache → c.parentId = some cid →
        PCall.deleteCat cid ∈ (cleanup w).2 →
        before (cleanup w).2 (PCall.deleteChan c.id) (PCall.deleteCat cid)) := by
  constructor
  · intro w sport cid c hmap hsome hmem hpar
    rw [Option.isSome_iff_exists] at hsome
    obtain ⟨cat, hcat⟩ := hsome
    simp only [removeCategory, hmap, hcat]
    refine before_append ?_ (List.mem_singleton.mpr rfl)
    exact List.mem_map_of_mem _ (List.mem_filter.mpr ⟨hmem, by simp [hpar]⟩)
  · intro w c gid reg cid hreg hch hmem hpar hcat
    have hsplit : (cleanup w).2 =
        (cleanupChannels w.activeGames w).2 ++
          (cleanupCategories (cleanupChannels w.activeGames w).1.categories
            (cleanupChannels w.activeGames w).1).2 := rfl
    rw [hsplit] at hcat ⊢
    rcases List.mem_append.mp hcat with hin | hin
    · obtain ⟨i, hi⟩ := cleanupChannels_trace_shape _ _ _ hin
      cases hi
    · refine before_append ?_ hin
      have := cleanupChannels_mem w.activeGames w gid reg hreg
        (by rw [hch]; exact cacheGet_isSome_of_mem c w.cache hmem)
      rw [hch] at this
      exact this

/-- A small world for the C9 witness: one NFL category `catA` with one
registered game channel `chA` under it. -/
def scmC9 : SCM :=
  ⟨[("g1", ⟨"chA", "catA", "football", "nfl"⟩)],
   [("NFL", "catA")],
   [⟨"catA", true, "🏈 NFL Live Scores", "", none⟩,
    ⟨"chA", false, "dal-0-0-nyg", "topic", some "catA"⟩],
   0, []⟩

/-- Claim C9 (witness): on `scmC9`, both teardown paths order the child
channel delete before the category delete. -/
theorem teardown_children_first_witness :
    (mapGet "NFL" scmC9.categories = some "catA" ∧
      (cacheGet "catA" scmC9.cache).isSome = true ∧
      (⟨"chA", false, "dal-0-0-nyg", "topic", some "catA"⟩ : Channel) ∈ scmC9.cache ∧
      before (removeCategory scmC9 "NFL").2 (PCall.deleteChan "chA") (PCall.deleteCat "catA")) ∧
    (PCall.deleteCat "catA" ∈ (cleanup scmC9).2 ∧
      before (cleanup scmC9).2 (PCall.deleteChan "chA") (PCall.deleteCat "catA")) :=
  ⟨⟨by decide, by decide, by decide,
    teardown_children_first.1 scmC9 "NFL" "catA"
      ⟨"chA", false, "dal-0-0-nyg", "topic", some "catA"⟩
      (by decide) (by decide) (by decide) rfl⟩,
   ⟨by decide,
    teardown_children_first.2 scmC9
      ⟨"chA", false, "dal-0-0-nyg", "topic", some "catA"⟩
      "g1" ⟨"chA", "catA", "football", "nfl"⟩ "catA"
      (by decide) rfl (by decide) rfl (by decide)⟩⟩

end SportsBot
